import Mathlib

/-!
Shallow embedding of the notebook-to-demo converter
(src/notebook_converter/notebook_to_demo.py).

The converter turns a Jupyter-style notebook (JSON: a list of markdown and
code cells, code cells carrying captured outputs) into a single annotated
Python script.  The Python source is translated function by function:

* the regex substitutions `update_sphinx_tags`, `add_property_newline` and
  `fix_image_alt_tag_as_text` become fuel-indexed character scanners that
  replicate  Python `re.sub` semantics (leftmost, non-overlapping matches,
  greedy quantifiers, scanning resumes after each replacement);
* `generate_code_output_block` / `generate_sphinx_role_comment` become pure
  string functions;
* `convert_notebook_to_python` becomes a fold over the cell list threading
  an accumulated document string plus an explicit filesystem model (needed
  for the image-extraction side effects); Python exceptions (AssertionError
  for structural validation, TypeError for membership tests on None,
  KeyError for a missing cell id, IsADirectoryError on opening a directory,
  FileNotFoundError for a missing copy source) become an `Except` error
  type;
* `set_author_info` becomes an explicit filesystem transformer;
* the black-box markdown-to-rst converter (pypandoc) is an injected
  function field of the configuration, as the spec treats it as an external
  collaborator;
* the Python stdlib `base64.b64decode` is modelled by an executable decoder
  of the standard alphabet (non-alphabet characters discarded);
* CWD-relative path resolution is dropped: the filesystem model is keyed by
  the relative path strings the program builds, which is a uniform renaming
  of the paths the Python code touches.
-/

namespace NbConv

/-! ### Character classes and small string helpers -/

/-- ASCII word character, Python regex `\w` restricted to ASCII. -/
def isWordChar (c : Char) : Bool := c.isAlphanum || c = '_'

/-- Python `str.strip` / `str.rstrip` default whitespace set. -/
def isPyWs (c : Char) : Bool :=
  c = ' ' || c = '\t' || c = '\n' || c = '\r' || c = '\x0b' || c = '\x0c'

/-- Python `line.rstrip()`. -/
def pyRstrip (s : String) : String :=
  String.mk ((s.data.reverse.dropWhile isPyWs).reverse)

/-- Python `line.strip()`. -/
def pyStrip (s : String) : String :=
  String.mk (((s.data.dropWhile isPyWs).reverse.dropWhile isPyWs).reverse)

/-- Python `str.split(sep)` for a single-character separator (keeps empty
pieces, `[""]` on the empty string). -/
def splitOnChar (sep : Char) : List Char → List (List Char)
  | [] => [[]]
  | c :: rest =>
    match splitOnChar sep rest with
    | [] => [[c]]
    | h :: t => if c = sep then [] :: h :: t else (c :: h) :: t

/-- Does `pat` occur as a contiguous substring of `s`? -/
def substrOccurs (pat : List Char) : List Char → Bool
  | [] => pat.isPrefixOf []
  | c :: t => pat.isPrefixOf (c :: t) || substrOccurs pat t

/-- The 70-character separator comment line `'#' * 70`. -/
def hashSep : String := String.mk (List.replicate 70 '#')

/-! ### The three regex post-processing transforms (Markup Post-Processor)

Each Python `re.sub` is replicated by a scanner over the character list.
The first argument is fuel; every step consumes at least one character of
the input, so fuel equal to the input length never runs out (the fuel-zero
branch returns the rest unchanged and is unreachable from the wrappers). -/

/-- The tail of the literal `".. container:: "` after its first character. -/
def ustPat : List Char := ". container:: ".data

def headIsWord : List Char → Bool
  | [] => false
  | c :: _ => isWordChar c

/-- Scanner for `re.sub(r"\.\. container:: (\w+)", r".. \1::", rst)`:
at a match, the greedy `\w+` group is the maximal word-character run after
the literal, and scanning resumes after the match. -/
def ustFuel : Nat → List Char → List Char
  | 0, l => l
  | _ + 1, [] => []
  | f + 1, c :: rest =>
    if c = '.' ∧ ustPat.isPrefixOf rest = true ∧ headIsWord (rest.drop 14) = true then
      ".. ".data ++ (rest.drop 14).takeWhile isWordChar ++ "::".data ++
        ustFuel f ((rest.drop 14).dropWhile isWordChar)
    else c :: ustFuel f rest

/-- `update_sphinx_tags` from the source. -/
def update_sphinx_tags (s : String) : String :=
  String.mk (ustFuel s.data.length s.data)

/-- The tail of the matched literal `" :property="` after the space. -/
def apnPat : List Char := ":property=".data

def prevIsWord : Option Char → Bool
  | none => false
  | some c => isWordChar c

/-- Scanner for `re.sub(r"(\w+) (:property=)", r"\1\n   \2", rst)`.
The replacement keeps group 1 in place, so the substitution amounts to
replacing the space between a word character and `:property=` by a newline
plus three spaces; `prev` is the last input character already consumed,
giving the group-1 lookback. -/
def apnFuel : Nat → Option Char → List Char → List Char
  | 0, _, l => l
  | _ + 1, _, [] => []
  | f + 1, prev, c :: rest =>
    if c = ' ' ∧ apnPat.isPrefixOf rest = true ∧ prevIsWord prev = true then
      "\n   :property=".data ++ apnFuel f (some '=') (rest.drop 10)
    else c :: apnFuel f (some c) rest

/-- `add_property_newline` from the source (character-list core). -/
def apnChar (l : List Char) : List Char := apnFuel l.length none l

/-- `add_property_newline` from the source. -/
def add_property_newline (s : String) : String := String.mk (apnChar s.data)

/-- The tail of the literal `"   :alt: "` after its first space. -/
def fiaPat8 : List Char := "  :alt: ".data

/-- Scanner for `re.sub(r" {3}:alt: (.+)\n\n {3}(.+)", r"   :alt: \1", rst)`:
three spaces, `:alt: `, a nonempty rest-of-line (group 1), a blank line,
three spaces and a nonempty rest-of-line (group 2, dropped). `.` does not
match newlines, so both groups are maximal newline-free runs. -/
def fiaFuel : Nat → List Char → List Char
  | 0, l => l
  | _ + 1, [] => []
  | f + 1, c :: rest =>
    if c = ' ' ∧ fiaPat8.isPrefixOf rest = true then
      if (rest.drop 8).takeWhile (fun x => x ≠ '\n') ≠ [] ∧
          "\n\n   ".data.isPrefixOf (((rest.drop 8).dropWhile (fun x => x ≠ '\n'))) = true ∧
          ((((rest.drop 8).dropWhile (fun x => x ≠ '\n')).drop 5).takeWhile (fun x => x ≠ '\n')) ≠ [] then
        "   :alt: ".data ++ (rest.drop 8).takeWhile (fun x => x ≠ '\n') ++
          fiaFuel f ((((rest.drop 8).dropWhile (fun x => x ≠ '\n')).drop 5).dropWhile (fun x => x ≠ '\n'))
      else c :: fiaFuel f rest
    else c :: fiaFuel f rest

/-- `fix_image_alt_tag_as_text` from the source. -/
def fix_image_alt_tag_as_text (s : String) : String :=
  String.mk (fiaFuel s.data.length s.data)

/-- The post-processing pipeline applied to every pandoc-converted markdown
fragment, in source order: tag normalization, then attribute split, then
alt dedup (character-list form). -/
def charPipeline (l : List Char) : List Char :=
  fiaFuel (apnChar (ustFuel l.length l)).length (apnChar (ustFuel l.length l))

/-- The post-processing pipeline on strings, exactly
`fix_image_alt_tag_as_text (add_property_newline (update_sphinx_tags s))`. -/
def postProcessRst (s : String) : String :=
  fix_image_alt_tag_as_text (add_property_newline (update_sphinx_tags s))

/-- Scanner for the terminal `ret_python_str.replace("\n%", "\n# %")`
(non-overlapping, scanning resumes after each replacement). -/
def rnpFuel : Nat → List Char → List Char
  | 0, l => l
  | _ + 1, [] => []
  | _ + 1, [c] => [c]
  | f + 1, c :: d :: rest =>
    if c = '\n' ∧ d = '%' then '\n' :: '#' :: ' ' :: '%' :: rnpFuel f rest
    else c :: rnpFuel f (d :: rest)

def replaceNewlinePercent (s : String) : String :=
  String.mk (rnpFuel s.data.length s.data)

/-! ### Data model -/

/-- The MIME mapping of an output record; only the two keys the converter
reads (`text/plain`: a list of text lines, `image/png`: a base64 payload). -/
structure OutputData where
  textPlain : Option (List String)
  imagePng : Option String
  deriving DecidableEq, Repr

/-- One output record: `output_type` tag, optional `data` mapping (absent
models a record without the `data` key), optional `text` (stream text). -/
structure Output where
  output_type : String
  data : Option OutputData
  text : Option (List String)
  deriving DecidableEq, Repr

/-- One notebook cell. `source` is the optional sequence-of-lines field
(`cell.get("source", [])`), `id` the optional cell identifier
(`cell["id"]`, a KeyError when absent), `outputs` the optional output list
(`cell.get("outputs", [])`). -/
structure Cell where
  cell_type : String
  source : Option (List String)
  id : Option String
  outputs : Option (List Output)
  deriving DecidableEq, Repr

/-- A notebook: the optional `cells` key. -/
structure Notebook where
  cells : Option (List Cell)
  deriving DecidableEq, Repr

/-- `"".join(cell.get("source", []))`. -/
def joinSource (c : Cell) : String := String.join (c.source.getD [])

/-- The Python exceptions the converter can raise, named per the spec's
error taxonomy where one exists. -/
inductive ConvErr where
  /-- AssertionError from the initial notebook validation (StructuralError). -/
  | structuralErr
  /-- TypeError from `"text/plain" in output_data` when `data` is absent. -/
  | typeErr
  /-- KeyError from `cell["id"]` when the id is absent. -/
  | keyErr
  /-- IsADirectoryError from `open(path, "wb")` on a directory. -/
  | isADirErr
  /-- FileNotFoundError from `shutil.copy` on a missing source. -/
  | fileNotFoundErr
  deriving DecidableEq, Repr

/-! ### Filesystem model

A flat association list from path strings (as the program builds them,
`/`-joined, CWD resolution dropped) to entries. -/

inductive FSEntry where
  | dir
  | textFile (content : String)
  | binFile (content : List Nat)
  deriving DecidableEq, Repr

abbrev FS := List (String × FSEntry)

def fsGet : FS → String → Option FSEntry
  | [], _ => none
  | (q, e) :: rest, p => if q = p then some e else fsGet rest p

def fsSet : FS → String → FSEntry → FS
  | [], p, e => [(p, e)]
  | (q, e') :: rest, p, e => if q = p then (p, e) :: rest else (q, e') :: fsSet rest p e

/-- The cumulative `/`-joined ancestor paths of a segment list:
`["a","b","c"]` becomes `["a", "a/b", "a/b/c"]`. -/
def cumulPaths (acc : String) : List String → List String
  | [] => []
  | s :: rest => (acc ++ s) :: cumulPaths (acc ++ s ++ "/") rest

def pathAncestors (p : String) : List String :=
  cumulPaths "" ((splitOnChar '/' p.data).map String.mk)

/-- `Path.mkdir(parents=True)`: create a directory at the path and at every
missing ancestor (existing entries left alone). -/
def mkdirParents (fs : FS) (p : String) : FS :=
  (pathAncestors p).foldl (fun f q => if (fsGet f q).isSome then f else fsSet f q .dir) fs

/-! ### base64 (model of Python stdlib `base64.b64decode`) -/

def b64val (c : Char) : Option Nat :=
  if 'A' ≤ c ∧ c ≤ 'Z' then some (c.toNat - 65)
  else if 'a' ≤ c ∧ c ≤ 'z' then some (c.toNat - 71)
  else if '0' ≤ c ∧ c ≤ '9' then some (c.toNat + 4)
  else if c = '+' then some 62
  else if c = '/' then some 63
  else none

def b64chunks : List Nat → List Nat
  | a :: b :: c :: d :: rest =>
    (a * 4 + b / 16) :: ((b % 16) * 16 + c / 4) :: ((c % 4) * 64 + d) :: b64chunks rest
  | [a, b] => [a * 4 + b / 16]
  | [a, b, c] => [a * 4 + b / 16, (b % 16) * 16 + c / 4]
  | _ => []

/-- Decode a base64 payload to bytes (padding and other non-alphabet
characters discarded, as `b64decode` without validation does). -/
def b64decodeModel (s : String) : List Nat := b64chunks (s.data.filterMap b64val)

/-! ### Output-Block Renderer -/

/-- The fixed header line list of `generate_code_output_block`. -/
def output_header_lines : List String :=
  [".. rst-class :: sphx-glr-script-out", "", "Out:", "", ".. code-block: none", ""]

/-- The joined, comment-prefixed `output_header` string. -/
def outputHeaderStr : String :=
  String.intercalate "\n" (output_header_lines.map (fun l => "# " ++ l))

/-- `generate_code_output_block(output_source, only_header)` from the
source.  With `only_header` it returns just the header; otherwise the
separator line, the header, and (for a truthy source) each line
right-stripped and prefixed by `"#    "`. -/
def generate_code_output_block (output_source : Option (List String)) (only_header : Bool) :
    String :=
  if only_header then outputHeaderStr
  else
    "\n\n" ++ hashSep ++ "\n" ++ outputHeaderStr ++
      (match output_source with
       | some L =>
         if L = [] then ""
         else "\n" ++ String.intercalate "\n" (L.map (fun l => "#    " ++ pyRstrip l))
       | none => "")

/-- `generate_sphinx_role_comment(role_name, target, **attrs)`; the keyword
arguments are passed as an ordered pair list (Python keeps kwargs order). -/
def generate_sphinx_role_comment (role_name target : String)
    (attrs : List (String × String)) : String :=
  String.intercalate "\n"
    (("# .. " ++ role_name ++ ":: " ++ target) ::
      attrs.map (fun a => "#    :" ++ a.1 ++ ": " ++ a.2))

/-- Static configuration threaded through the conversion; `md2rst` is the
injected black-box pypandoc markdown-to-rst converter. -/
structure Config where
  notebook_name : String
  is_executable : Bool
  sphinx_gallery_dir_name : String
  notebook_asset_folder_name : String
  md2rst : String → String

/-- The body of the per-output loop of `convert_notebook_to_python` for one
output record at loop index `j` with current per-cell image count
`numImages`; returns the appended fragment, the new image count and the new
filesystem. -/
def processOutput (cfg : Config) (cellId : Option String) (j numImages : Nat)
    (out : Output) (fs : FS) : Except ConvErr (String × Nat × FS) :=
  if out.output_type = "execute_result" then
    match out.data with
    | none => .error .typeErr
    | some d =>
      match d.textPlain with
      | some L => .ok (generate_code_output_block (some L) (j != 0), numImages, fs)
      | none => .ok ("", numImages, fs)
  else if out.output_type = "display_data" then
    match cellId with
    | none => .error .keyErr
    | some cid =>
      match out.data with
      | none => .error .typeErr
      | some d =>
        let textFrag : String :=
          match d.textPlain, d.imagePng with
          | some L, none =>
            (if j = 0 then generate_code_output_block none false else "") ++ "\n" ++
              String.intercalate "\n" (L.map (fun l => "#    " ++ pyStrip l))
          | _, _ => ""
        match d.imagePng with
        | none => .ok (textFrag, numImages, fs)
        | some payload =>
          let sepFrag : String := if j = 0 then "\n\n" ++ hashSep else ""
          let imagePath := cfg.sphinx_gallery_dir_name ++ "/" ++
            cfg.notebook_asset_folder_name ++ "/" ++ cfg.notebook_name ++ "_" ++ cid ++
            "_" ++ toString (numImages + 1) ++ ".png"
          let roleText := generate_sphinx_role_comment "figure" imagePath
            [("align", "center"), ("width", "80%")]
          let fs1 := if (fsGet fs imagePath).isSome then fs else mkdirParents fs imagePath
          match fsGet fs1 imagePath with
          | some .dir => .error .isADirErr
          | _ =>
            .ok (textFrag ++ sepFrag ++ "\n#\n" ++ roleText, numImages + 1,
              fsSet fs1 imagePath (.binFile (b64decodeModel payload)))
  else if out.output_type = "stream" then
    match out.text with
    | none => .ok ("", numImages, fs)
    | some L =>
      if L = [] then .ok ("", numImages, fs)
      else .ok (generate_code_output_block (some L) false, numImages, fs)
  else .ok ("", numImages, fs)

/-- The per-cell output loop: fold `processOutput` over the output list with
the loop index `j` and the image counter, accumulating the fragment. -/
def renderOutputs (cfg : Config) (cellId : Option String) :
    List Output → Nat → Nat → String → FS → Except ConvErr (String × FS)
  | [], _, _, acc, fs => .ok (acc, fs)
  | o :: rest, j, n, acc, fs =>
    match processOutput cfg cellId j n o fs with
    | .error e => .error e
    | .ok (frag, n', fs') => renderOutputs cfg cellId rest (j + 1) n' (acc ++ frag) fs'

/-! ### Cell Transcoder -/

/-- Comment-prefix every line: `"\n".join(f"# {line}" for line in s.split("\n"))`. -/
def commentedLines (s : String) : String :=
  String.intercalate "\n" ((splitOnChar '\n' s.data).map (fun l => "# " ++ String.mk l))

/-- The main cell loop of `convert_notebook_to_python`: walk the cells with
index `i`, accumulating the document string and threading the filesystem. -/
def convertCells (cfg : Config) : List Cell → Nat → String → FS → Except ConvErr (String × FS)
  | [], _, acc, fs => .ok (acc, fs)
  | c :: rest, i, acc, fs =>
    if c.cell_type = "markdown" ∧ joinSource c ≠ "" then
      let rstF := postProcessRst (cfg.md2rst (joinSource c))
      convertCells cfg rest (i + 1)
        (if i = 0 then "r\"\"\"" ++ rstF ++ "\"\"\""
         else acc ++ "\n\n" ++ hashSep ++ "\n" ++ commentedLines rstF) fs
    else if c.cell_type = "code" ∧ joinSource c ≠ "" then
      if cfg.is_executable then convertCells cfg rest (i + 1) (acc ++ "\n\n" ++ joinSource c) fs
      else
        match renderOutputs cfg c.id (c.outputs.getD []) 0 0 "" fs with
        | .error e => .error e
        | .ok (frag, fs') =>
          convertCells cfg rest (i + 1) (acc ++ "\n\n" ++ joinSource c ++ frag) fs'
    else convertCells cfg rest (i + 1) acc fs

/-- `convert_notebook_to_python`: validate the notebook structure (the
initial `assert`s, AssertionError modelled as `structuralErr`), run the cell
loop, then apply the terminal `"\n%" -> "\n# %"` replacement. -/
def convert_notebook_to_python (cfg : Config) (nb : Notebook) (fs : FS) :
    Except ConvErr (String × FS) :=
  match nb.cells with
  | none => .error .structuralErr
  | some cells =>
    match cells with
    | [] => .error .structuralErr
    | c :: _ =>
      if c.cell_type = "markdown" then
        match convertCells cfg cells 0 "" fs with
        | .error e => .error e
        | .ok (s, fs') => .ok (replaceNewlinePercent s, fs')
      else .error .structuralErr

/-- The `__main__` tail: convert, then (only on success) write the document
file `<gallery-dir>/<notebook-name>.py`.  An error propagates with no
document file written. -/
def convertAndWriteDoc (cfg : Config) (nb : Notebook) (fs : FS) : Except ConvErr FS :=
  match convert_notebook_to_python cfg nb fs with
  | .error e => .error e
  | .ok (s, fs') =>
    .ok (fsSet fs' (cfg.sphinx_gallery_dir_name ++ "/" ++ cfg.notebook_name ++ ".py")
      (.textFile s))

/-! ### Author-Block Appender -/

structure AuthorInfo where
  name : String
  profile_picture : String
  bio : Option String
  formatted_name : Option String
  deriving DecidableEq, Repr

/-- The matched character class of the sanitizer regex
`[ \-'\u0080-￿]+`: space, hyphen, apostrophe, or a code point in
`U+0080 .. U+FFFF` (code points above `U+FFFF` are not matched). -/
def isSanChar (c : Char) : Bool :=
  c = ' ' || c = '-' || c = '\'' || (128 ≤ c.toNat && c.toNat ≤ 65535)

/-- Scanner for `re.sub(r"[ \-'\u0080-￿]+", "_", name)`: each maximal
run of matched characters collapses to a single underscore. -/
def sanFuel : Nat → List Char → List Char
  | 0, l => l
  | _ + 1, [] => []
  | f + 1, c :: rest =>
    if isSanChar c then '_' :: sanFuel f (rest.dropWhile isSanChar)
    else c :: sanFuel f rest

/-- `re.sub(r"[ \-'\u0080-￿]+", "_", name).lower()`. -/
def sanitized_name (name : String) : String :=
  String.mk ((sanFuel name.data.length name.data).map Char.toLower)

/-- The final path component (`Path(p).name`). -/
def pathFinalComponent (p : String) : String :=
  String.mk ((splitOnChar '/' p.data).getLastD [])

/-- `"".join(Path(p).suffixes)`: empty when the name ends with a dot, else
the dot-suffixes of the name after stripping leading dots. -/
def pathSuffixesJoined (p : String) : String :=
  let nm := (pathFinalComponent p).data
  if nm.getLastD ' ' = '.' then ""
  else
    String.join (((splitOnChar '.' (nm.dropWhile (fun c => c = '.'))).drop 1).map
      (fun l => "." ++ String.mk l))

/-- `set_author_info(author_info, authors_dir)`: copy the profile picture to
`<authors_dir>/<stem><suffixes>` (FileNotFoundError when the source is
missing), write the templated bio file `<authors_dir>/<stem>.txt`, and
return the trailing comment fragment with the inclusion reference. -/
def set_author_info (author : AuthorInfo) (authors_dir : String) (fs : FS) :
    Except ConvErr (String × FS) :=
  match fsGet fs author.profile_picture with
  | none => .error .fileNotFoundErr
  | some pic =>
    let name_formatted := author.formatted_name.getD (sanitized_name author.name)
    let new_profile_picture_loc :=
      authors_dir ++ "/" ++ name_formatted ++ pathSuffixesJoined author.profile_picture
    let info_file_loc := authors_dir ++ "/" ++ name_formatted ++ ".txt"
    let author_txt := ".. bio:: " ++ author.name ++ "\n   :photo: " ++
      new_profile_picture_loc ++ "\n\n   " ++ author.bio.getD "" ++ "\n    "
    let fs2 := fsSet (fsSet fs new_profile_picture_loc pic) info_file_loc
      (.textFile author_txt)
    .ok ("\n\n" ++ hashSep ++ "\n" ++
      String.intercalate "\n"
        ((["About the author", "----------------", ".. include:: " ++ info_file_loc]).map
          (fun l => "# " ++ l)), fs2)

/-- Project the document fragment out of a renderer result (empty string on
error); used to state substring facts about concrete renderings. -/
def fragOf (e : Except ConvErr (String × FS)) : String :=
  match e with
  | .ok p => p.1
  | .error _ => ""

end NbConv

namespace NbConv

/-! ### Concrete test fixtures -/

/-- A concrete configuration for non-executable conversion. -/
def cfgX : Config :=
  { notebook_name := "nb", is_executable := false, sphinx_gallery_dir_name := "demos",
    notebook_asset_folder_name := "assets", md2rst := id }

/-- An ExecuteResult output with `text/plain` lines `["a"]`. -/
def erA : Output := ⟨"execute_result", some ⟨some ["a"], none⟩, none⟩

/-- An ExecuteResult output with `text/plain` lines `["b"]`. -/
def erB : Output := ⟨"execute_result", some ⟨some ["b"], none⟩, none⟩

/-- A DisplayData output carrying only an `image/png` payload. -/
def pngOut : Output := ⟨"display_data", some ⟨none, some "aGVsbG8="⟩, none⟩

/-- Project the filesystem out of an author/renderer result (empty on error). -/
def fsOf (e : Except ConvErr (String × FS)) : FS :=
  match e with
  | .ok p => p.2
  | .error _ => []

def authorJane : AuthorInfo := ⟨"Jane Q. Doe", "jane.png", none, none⟩

def fsJane : FS := [("jane.png", .binFile [1, 2, 3])]

/-- Project the fragment out of a per-output result (empty on error). -/
def poFragOf (e : Except ConvErr (String × Nat × FS)) : String :=
  match e with
  | .ok p => p.1
  | .error _ => ""

end NbConv

namespace NbConv

/-! ### Claim theorems -/

/-- C1 (counterexample): a code cell with two ExecuteResult outputs, each
carrying `text/plain` (`["a"]` and `["b"]`).  The claim says the "Out:"
header is emitted once and every text line appears prefixed by `"#    "`;
in fact the second output's line `b` is dropped entirely (its call passes
`only_header=True`), so `"#    b"` does not occur in the rendered fragment
although `"#    a"` does. -/
theorem c1_counterexample :
    substrOccurs "#    a".data (fragOf (renderOutputs cfgX (some "c1") [erA, erB] 0 0 "" [])).data = true ∧
    substrOccurs "#    b".data (fragOf (renderOutputs cfgX (some "c1") [erA, erB] 0 0 "" [])).data = false := by
  decide

/-- C1 (amended): for an ExecuteResult output carrying `text/plain`, the
renderer emits the full "Out:" block (separator line, header, then each
line right-stripped and prefixed `"#    "`) only when the output sits at
index 0 of the cell's output list; at every later index it emits the header
block again and drops the output's text. -/
theorem c1_exec_result_rendering (cfg : Config) (cid : Option String) (j n : Nat) (fs : FS)
    (L : List String) (img : Option String) (txt : Option (List String)) :
    processOutput cfg cid j n ⟨"execute_result", some ⟨some L, img⟩, txt⟩ fs =
      .ok ((if j = 0 then
        "\n\n" ++ hashSep ++ "\n" ++ outputHeaderStr ++
          (if L = [] then ""
           else "\n" ++ String.intercalate "\n" (L.map (fun l => "#    " ++ pyRstrip l)))
        else outputHeaderStr), n, fs) := by
  by_cases hj : j = 0 <;>
    simp [processOutput, generate_code_output_block, hj]

end NbConv

namespace NbConv

/-- C2 (code_bug evaluation): converting a notebook whose code cell carries a
DisplayData `image/png` output, against a filesystem where the target image
path does not yet exist, fails with IsADirectoryError: the code guards with
`if not image_save_loc.exists()` and then calls `mkdir(parents=True)` on the
image FILE path itself, so `open(image_save_loc, "wb")` opens a directory.
No image file is ever written on a fresh filesystem, while the claim (and
spec) intend the PARENT directory to be created and the PNG written. -/
theorem c2_image_write_crashes_on_fresh_fs :
    convert_notebook_to_python cfgX
      ⟨some [⟨"markdown", some ["# T"], none, none⟩,
             ⟨"code", some ["plot()"], some "c1", some [pngOut]⟩]⟩ [] =
      .error .isADirErr ∧
    processOutput cfgX (some "c1") 0 0 pngOut [] = .error .isADirErr := by
  exact ⟨rfl, rfl⟩

/-- C3 (counterexample): the sanitizer regex `[ \-'\u0080-￿]+` does not
match `'.'`, so the author `Jane Q. Doe` gets the stem `jane_q._doe`, not
the claimed `jane_q_doe`: no `jane_q_doe.png` / `jane_q_doe.txt` is written
(while the `jane_q._doe` files are), and the returned fragment does not
reference `jane_q_doe.txt`. -/
theorem c3_counterexample :
    sanitized_name "Jane Q. Doe" = "jane_q._doe" ∧
    fsGet (fsOf (set_author_info authorJane "authors" fsJane)) "authors/jane_q._doe.png" =
      some (.binFile [1, 2, 3]) ∧
    fsGet (fsOf (set_author_info authorJane "authors" fsJane)) "authors/jane_q_doe.png" = none ∧
    fsGet (fsOf (set_author_info authorJane "authors" fsJane)) "authors/jane_q_doe.txt" = none ∧
    substrOccurs "jane_q_doe.txt".data
      (fragOf (set_author_info authorJane "authors" fsJane)).data = false := by
  refine ⟨by decide, by decide, by decide, by decide, by decide⟩

/-- C3 (amended): for the author `Jane Q. Doe` with picture `jane.png` and
no `formatted_name` override, the derived stem is `jane_q._doe` (the
sanitizer collapses whitespace/hyphen/apostrophe/high-codepoint runs to an
underscore but leaves the period of `Q.` in place); the files written are
`jane_q._doe.png` and `jane_q._doe.txt` in the authors directory, and the
returned trailing fragment references `jane_q._doe.txt`. -/
theorem c3_amended :
    set_author_info authorJane "authors" fsJane =
      .ok ("\n\n" ++ hashSep ++
        "\n# About the author\n# ----------------\n# .. include:: authors/jane_q._doe.txt",
        [("jane.png", .binFile [1, 2, 3]),
         ("authors/jane_q._doe.png", .binFile [1, 2, 3]),
         ("authors/jane_q._doe.txt",
          .textFile ".. bio:: Jane Q. Doe\n   :photo: authors/jane_q._doe.png\n\n   \n    ")]) := by
  rfl

end NbConv

namespace NbConv

set_option maxRecDepth 8192 in
/-- C5 (counterexample): a DisplayData output carrying `text/plain`
`[" x"]` and no image, at output index 0, renders differently from an
ExecuteResult with the same text at the same index: the DisplayData path
strips leading whitespace (`"#    x"`) while the ExecuteResult path only
right-strips (`"#     x"`), so the fragments are not identical. -/
theorem c5_counterexample :
    processOutput cfgX (some "c1") 0 0 ⟨"display_data", some ⟨some [" x"], none⟩, none⟩ [] ≠
      processOutput cfgX (some "c1") 0 0 ⟨"execute_result", some ⟨some [" x"], none⟩, none⟩ [] := by
  intro h
  have h2 := congrArg (fun e => (poFragOf e).data) h
  exact absurd h2 (by decide)

/-- C5 (amended): the DisplayData text-only path renders identically to the
ExecuteResult text path only at output index 0, for a nonempty line list
each of whose lines is unchanged by left-stripping (`strip` agreeing with
`rstrip`); the two paths then produce the same separator, header and
indented lines.  (At later indices the two paths differ — ExecuteResult
emits only the header, DisplayData only the stripped text lines — and lines
with leading whitespace differ as in the counterexample.) -/
theorem c5_display_text_matches_exec_at_index_zero (cfg : Config) (cid : String) (n : Nat)
    (fs : FS) (L : List String) (txt txt' : Option (List String))
    (hne : L ≠ []) (hstrip : ∀ l ∈ L, pyStrip l = pyRstrip l) :
    processOutput cfg (some cid) 0 n ⟨"display_data", some ⟨some L, none⟩, txt⟩ fs =
      processOutput cfg (some cid) 0 n ⟨"execute_result", some ⟨some L, none⟩, txt'⟩ fs := by
  have hmap : L.map (fun l => "#    " ++ pyStrip l) = L.map (fun l => "#    " ++ pyRstrip l) :=
    List.map_congr_left (fun l hl => by rw [hstrip l hl])
  simp [processOutput, generate_code_output_block, hne, hmap, String.append_assoc]

/-- C5 witness: the amended theorem at the concrete line list `["1"]`. -/
theorem c5_witness :
    processOutput cfgX (some "c1") 0 0 ⟨"display_data", some ⟨some ["1"], none⟩, none⟩ [] =
      processOutput cfgX (some "c1") 0 0 ⟨"execute_result", some ⟨some ["1"], none⟩, none⟩ [] :=
  c5_display_text_matches_exec_at_index_zero cfgX "c1" 0 [] ["1"] none none
    (by decide) (by decide)

/-- C6 (counterexample): a Stream output record lacking the `text` key is
not a fail-fast error: the renderer silently skips it and contributes the
empty fragment (the claim requires a MalformedOutput failure for every
output lacking its expected key); likewise an ExecuteResult whose data
mapping lacks `text/plain` is silently skipped. -/
theorem c6_counterexample :
    processOutput cfgX (some "c1") 0 0 ⟨"stream", none, none⟩ [] = .ok ("", 0, []) ∧
    processOutput cfgX (some "c1") 0 0 ⟨"execute_result", some ⟨none, none⟩, none⟩ [] =
      .ok ("", 0, []) := by
  exact ⟨rfl, rfl⟩

/-- C6 (amended): an ExecuteResult or DisplayData record with no `data`
mapping does fail fast (the `"text/plain" in output_data` membership test
raises TypeError), but a Stream record with no `text`, and an ExecuteResult
whose data mapping lacks `text/plain`, are silently skipped, contributing
the empty fragment; in no case is output text fabricated. -/
theorem c6_malformed_output_handling :
    (∀ cfg cid j n fs txt,
      processOutput cfg cid j n ⟨"execute_result", none, txt⟩ fs = .error .typeErr) ∧
    (∀ cfg c j n fs txt,
      processOutput cfg (some c) j n ⟨"display_data", none, txt⟩ fs = .error .typeErr) ∧
    (∀ cfg cid j n fs d,
      processOutput cfg cid j n ⟨"stream", d, none⟩ fs = .ok ("", n, fs)) ∧
    (∀ cfg cid j n fs img txt,
      processOutput cfg cid j n ⟨"execute_result", some ⟨none, img⟩, txt⟩ fs =
        .ok ("", n, fs)) := by
  refine ⟨fun cfg cid j n fs txt => rfl, fun cfg c j n fs txt => rfl,
    fun cfg cid j n fs d => rfl, fun cfg cid j n fs img txt => rfl⟩

/-- C7: for a code cell with nonempty source processed with
`is_executable = true`, the cell loop appends exactly the code source
preceded by two newlines — the Output-Block Renderer contributes the empty
fragment and the filesystem is untouched, regardless of the cell's outputs. -/
theorem c7_executable_cell_skips_outputs (cfg : Config) (c : Cell) (rest : List Cell)
    (i : Nat) (acc : String) (fs : FS) (hexec : cfg.is_executable = true)
    (htype : c.cell_type = "code") (hsrc : joinSource c ≠ "") :
    convertCells cfg (c :: rest) i acc fs =
      convertCells cfg rest (i + 1) (acc ++ "\n\n" ++ joinSource c) fs := by
  simp [convertCells, htype, hexec, hsrc]

/-- C7 witness: a concrete executable code cell carrying outputs. -/
theorem c7_witness :
    convertCells { cfgX with is_executable := true }
        [⟨"code", some ["print(1)"], some "c1", some [erA]⟩] 0 "" [] =
      convertCells { cfgX with is_executable := true } [] 1 ("" ++ "\n\n" ++ "print(1)") [] := by
  have h := c7_executable_cell_skips_outputs { cfgX with is_executable := true }
    ⟨"code", some ["print(1)"], some "c1", some [erA]⟩ [] 0 "" [] rfl rfl (by decide)
  simpa [joinSource] using h

/-- C4: a notebook missing the `cells` key, or with an empty cell list, or
whose first cell is not a Markdown cell, fails the initial validation with
a StructuralError (AssertionError), and the document file is not written
(the main flow writes `<gallery-dir>/<name>.py` only after conversion
succeeds). -/
theorem c4_structural_failure_writes_nothing (cfg : Config) (nb : Notebook) (fs : FS)
    (h : nb.cells = none ∨ nb.cells = some [] ∨
      ∃ c rest, nb.cells = some (c :: rest) ∧ c.cell_type ≠ "markdown") :
    convertAndWriteDoc cfg nb fs = .error .structuralErr := by
  rcases h with h | h | ⟨c, rest, h, hc⟩
  · simp [convertAndWriteDoc, convert_notebook_to_python, h]
  · simp [convertAndWriteDoc, convert_notebook_to_python, h]
  · simp [convertAndWriteDoc, convert_notebook_to_python, h, hc]

/-- C4 witness: a notebook whose first cell is a code cell. -/
theorem c4_witness :
    convertAndWriteDoc cfgX ⟨some [⟨"code", some ["x"], none, none⟩]⟩ [] =
      .error .structuralErr :=
  c4_structural_failure_writes_nothing cfgX ⟨some [⟨"code", some ["x"], none, none⟩]⟩ []
    (Or.inr (Or.inr ⟨⟨"code", some ["x"], none, none⟩, [], rfl, by decide⟩))

/-- C10: a notebook whose first cell is a Markdown cell with empty or
absent source passes structural validation, and the first cell contributes
nothing: the conversion result is exactly the conversion of the remaining
cells (processed from index 1 with an empty accumulator, followed by the
terminal newline-percent escape) — in particular no triple-quoted header
block is ever emitted for the first cell. -/
theorem c10_empty_header_contributes_nothing (cfg : Config) (c0 : Cell) (rest : List Cell)
    (fs : FS) (hmd : c0.cell_type = "markdown") (hsrc : joinSource c0 = "") :
    convert_notebook_to_python cfg ⟨some (c0 :: rest)⟩ fs =
      match convertCells cfg rest 1 "" fs with
      | .error e => .error e
      | .ok (s, fs') => .ok (replaceNewlinePercent s, fs') := by
  have hstep : convertCells cfg (c0 :: rest) 0 "" fs = convertCells cfg rest 1 "" fs := by
    simp [convertCells, hmd, hsrc]
  simp [convert_notebook_to_python, hmd, hstep]

/-- C10 witness: a markdown first cell with absent source followed by one
code cell. -/
theorem c10_witness :
    convert_notebook_to_python cfgX
        ⟨some [⟨"markdown", none, none, none⟩, ⟨"code", some ["print(1)"], some "c1", some []⟩]⟩ [] =
      match convertCells cfgX [⟨"code", some ["print(1)"], some "c1", some []⟩] 1 "" [] with
      | .error e => .error e
      | .ok (s, fs') => .ok (replaceNewlinePercent s, fs') :=
  c10_empty_header_contributes_nothing cfgX ⟨"markdown", none, none, none⟩
    [⟨"code", some ["print(1)"], some "c1", some []⟩] [] rfl rfl

end NbConv

namespace NbConv

/-! ### Supporting lemmas for the regex-scanner proofs -/

theorem drop_append_le {l₁ l₂ : List Char} {n : Nat} (h : n ≤ l₁.length) :
    (l₁ ++ l₂).drop n = l₁.drop n ++ l₂ := by
  have h1 : l₁ ++ l₂ = l₁.take n ++ (l₁.drop n ++ l₂) := by
    rw [← List.append_assoc, List.take_append_drop]
  rw [h1, List.drop_left' (by simp [List.length_take]; omega)]

theorem suffix_append_left {S B : List Char} (A : List Char) (h : S <:+ B) :
    S <:+ A ++ B :=
  h.trans (List.suffix_append A B)

theorem suffix_cons {S B : List Char} (c : Char) (h : S <:+ B) : S <:+ c :: B :=
  h.trans (List.suffix_append [c] B)

/-- Fuel irrelevance for the attribute-split scanner: any fuel at least the
input length gives the same result. -/
theorem apnFuel_mono : ∀ (f₁ f₂ : Nat) (prev : Option Char) (l : List Char),
    l.length ≤ f₁ → l.length ≤ f₂ → apnFuel f₁ prev l = apnFuel f₂ prev l := by
  intro f₁
  induction f₁ with
  | zero =>
    intro f₂ prev l h1 h2
    have hl : l = [] := List.eq_nil_of_length_eq_zero (Nat.le_zero.mp h1)
    subst hl
    cases f₂ <;> rfl
  | succ f ih =>
    intro f₂ prev l h1 h2
    cases l with
    | nil => cases f₂ <;> rfl
    | cons c rest =>
      cases f₂ with
      | zero => simp at h2
      | succ g =>
        simp only [apnFuel]
        by_cases hc : (c = ' ' ∧ apnPat.isPrefixOf rest = true ∧ prevIsWord prev = true)
        · rw [if_pos hc, if_pos hc]
          congr 1
          apply ih
          · simp only [List.length_cons] at h1
            simp only [List.length_drop]
            omega
          · simp only [List.length_cons] at h2
            simp only [List.length_drop]
            omega
        · rw [if_neg hc, if_neg hc]
          congr 1
          apply ih
          · simp only [List.length_cons] at h1; omega
          · simp only [List.length_cons] at h2; omega

/-- The fragment ending the C9 test inputs. -/
def c9Tail : List Char := "foo :property=bar".data

/-- The split form the transform should produce at the end. -/
def c9Split : List Char := "foo\n   :property=bar".data

theorem apn_on_tail (f : Nat) (prev : Option Char) (h : 17 ≤ f) :
    apnFuel f prev c9Tail = c9Split := by
  have hm : apnFuel f prev c9Tail = apnFuel 17 prev c9Tail := by
    apply apnFuel_mono
    · have hl : c9Tail.length = 17 := rfl
      omega
    · exact Nat.le_refl _
  rw [hm]
  have h1 : apnFuel 17 prev c9Tail = 'f' :: apnFuel 16 (some 'f') "oo :property=bar".data := by
    show apnFuel (16 + 1) prev ('f' :: "oo :property=bar".data) = _
    simp only [apnFuel]
    rw [if_neg]
    rintro ⟨hf, -⟩
    exact absurd hf (by decide)
  rw [h1]
  decide

/-- C9 auxiliary: for any fragment of the form `pre ++ "foo :property=bar"`,
the scanner output ends with `"foo\n   :property=bar"`, whatever fuel at
least the input length and whatever preceding-character state. -/
theorem c9_aux : ∀ (f : Nat) (pre : List Char) (prev : Option Char),
    (pre ++ c9Tail).length ≤ f → c9Split <:+ apnFuel f prev (pre ++ c9Tail) := by
  intro f
  induction f with
  | zero =>
    intro pre prev h
    exfalso
    rw [List.length_append] at h
    have hl : c9Tail.length = 17 := rfl
    omega
  | succ f ih =>
    intro pre prev h
    cases pre with
    | nil =>
      rw [List.nil_append]
      have h' : c9Tail.length ≤ f + 1 := by simpa using h
      have hl : c9Tail.length = 17 := rfl
      rw [apn_on_tail (f + 1) prev (by omega)]
    | cons c pre' =>
      show c9Split <:+ apnFuel (f + 1) prev (c :: (pre' ++ c9Tail))
      by_cases hc : (c = ' ' ∧ apnPat.isPrefixOf (pre' ++ c9Tail) = true ∧ prevIsWord prev = true)
      · simp only [apnFuel, if_pos hc]
        by_cases hlen : 10 ≤ pre'.length
        · rw [drop_append_le hlen]
          refine suffix_append_left _ (ih (pre'.drop 10) (some '=') ?_)
          simp only [List.cons_append, List.length_cons, List.length_append] at h
          simp only [List.length_append, List.length_drop]
          omega
        · exfalso
          push_neg at hlen
          obtain ⟨-, hpre, -⟩ := hc
          have hp : apnPat <+: pre' ++ c9Tail := List.isPrefixOf_iff_prefix.mp hpre
          have hp2 : pre' <+: apnPat := by
            apply List.prefix_of_prefix_length_le (List.prefix_append pre' c9Tail) hp
            have hl : apnPat.length = 10 := rfl
            omega
          have hpe : pre' = apnPat.take pre'.length := List.prefix_iff_eq_take.mp hp2
          have hk : pre'.length < 10 := hlen
          generalize hq : pre'.length = k at hpe hk
          rw [hpe] at hpre
          interval_cases k <;> exact absurd hpre (by decide)
      · simp only [apnFuel, if_neg hc]
        refine suffix_cons c (ih pre' (some c) ?_)
        simp only [List.cons_append, List.length_cons, List.length_append] at h
        simp only [List.length_append]
        omega

/-- C9: for every text fragment ending in `foo :property=bar`, the
attribute-split transform's output ends with the two lines `foo` and
`   :property=bar`: the space before the marker becomes a newline plus a
three-space indent (a single substitution at the match site), and nothing
follows the marker line. -/
theorem c9_property_marker_split (pre : String) :
    "foo\n   :property=bar".data <:+
      (add_property_newline (pre ++ "foo :property=bar")).data := by
  show c9Split <:+ (add_property_newline (pre ++ "foo :property=bar")).data
  have hd : (pre ++ "foo :property=bar").data = pre.data ++ c9Tail := by
    rw [String.data_append]; rfl
  rw [add_property_newline, apnChar, hd]
  exact c9_aux _ pre.data none (Nat.le_refl _)

end NbConv

namespace NbConv

theorem ustFuel_nil (f : Nat) : ustFuel f [] = [] := by cases f <;> rfl

/-- Tag normalization on a container site: the scanner rewrites
`.. container:: <tag>` (word-character tag) to `.. <tag>::` and consumes
the whole fragment. -/
theorem ust_container_tag (f : Nat) (tag : List Char) (h1 : tag ≠ [])
    (h2 : ∀ c ∈ tag, isWordChar c = true) :
    ustFuel (f + 1) (".. container:: ".data ++ tag) = ".. ".data ++ tag ++ "::".data := by
  have hsplit : ".. container:: ".data ++ tag = '.' :: (ustPat ++ tag) := rfl
  rw [hsplit]
  have hdrop : (ustPat ++ tag).drop 14 = tag := List.drop_left' rfl
  have hpre : ustPat.isPrefixOf (ustPat ++ tag) = true :=
    List.isPrefixOf_iff_prefix.mpr (List.prefix_append _ _)
  have hhead : headIsWord tag = true := by
    cases tag with
    | nil => exact absurd rfl h1
    | cons t ts => exact h2 t (List.mem_cons_self t ts)
  have htake : tag.takeWhile isWordChar = tag := List.takeWhile_eq_self_iff.mpr h2
  have hdropw : tag.dropWhile isWordChar = [] := List.dropWhile_eq_nil_iff.mpr h2
  simp only [ustFuel, hdrop]
  rw [if_pos ⟨trivial, hpre, hhead⟩, htake, hdropw, ustFuel_nil]
  simp

/-- The attribute-split transform is the identity on fragments containing
no `'='` character (a match needs the literal `:property=`). -/
theorem apn_eq_self_of_no_eq : ∀ (f : Nat) (prev : Option Char) (l : List Char),
    '=' ∉ l → apnFuel f prev l = l := by
  intro f
  induction f with
  | zero => intro prev l h; rfl
  | succ f ih =>
    intro prev l h
    cases l with
    | nil => rfl
    | cons c rest =>
      have hnc : ¬ (c = ' ' ∧ apnPat.isPrefixOf rest = true ∧ prevIsWord prev = true) := by
        rintro ⟨-, hpre, -⟩
        have hsub : apnPat <+: rest := List.isPrefixOf_iff_prefix.mp hpre
        exact h (List.mem_cons_of_mem c (hsub.subset (by decide)))
      simp only [apnFuel, if_neg hnc]
      rw [ih (some c) rest (fun hm => h (List.mem_cons_of_mem c hm))]

/-- The literal the alt-dedup scanner matches first. -/
def fiaLit : List Char := "   :alt: ".data

/-- The alt-dedup transform is the identity when the literal `"   :alt: "`
does not occur in the fragment. -/
theorem fia_eq_self : ∀ (f : Nat) (l : List Char),
    substrOccurs fiaLit l = false → fiaFuel f l = l := by
  intro f
  induction f with
  | zero => intro l h; rfl
  | succ f ih =>
    intro l h
    cases l with
    | nil => rfl
    | cons c rest =>
      simp only [substrOccurs, Bool.or_eq_false_iff] at h
      obtain ⟨h1, h2⟩ := h
      have hnc : ¬ (c = ' ' ∧ fiaPat8.isPrefixOf rest = true) := by
        rintro ⟨rfl, hp⟩
        have hl : fiaLit.isPrefixOf (' ' :: rest) = true := by
          show (' ' :: fiaPat8).isPrefixOf (' ' :: rest) = true
          simp [List.isPrefixOf, hp]
        rw [hl] at h1
        exact absurd h1 (by decide)
      simp only [fiaFuel, if_neg hnc]
      rw [ih rest h2]

/-- `substrOccurs` is occurrence as a contiguous substring. -/
theorem substrOccurs_iff (pat : List Char) :
    ∀ l : List Char, substrOccurs pat l = true ↔ ∃ a b, l = a ++ pat ++ b := by
  intro l
  induction l with
  | nil =>
    cases pat with
    | nil => exact ⟨fun _ => ⟨[], [], rfl⟩, fun _ => rfl⟩
    | cons p ps =>
      simp [substrOccurs, List.isPrefixOf, List.append_eq_nil]
  | cons c t ih =>
    simp only [substrOccurs, Bool.or_eq_true, ih, List.isPrefixOf_iff_prefix]
    constructor
    · rintro (hp | ⟨a, b, rfl⟩)
      · obtain ⟨b, hb⟩ := hp
        exact ⟨[], b, by simp [hb.symm]⟩
      · exact ⟨c :: a, b, by simp⟩
    · rintro ⟨a, b, hab⟩
      cases a with
      | nil =>
        left
        exact ⟨b, by simpa using hab.symm⟩
      | cons x a' =>
        right
        rw [List.cons_append, List.cons_append, List.cons.injEq] at hab
        exact ⟨a', b, hab.2⟩

/-- The adjacent pair space-colon, an inner part of the alt literal. -/
def scPair : List Char := [' ', ':']

theorem substr_fiaLit_to_scPair (l : List Char)
    (h : substrOccurs fiaLit l = true) : substrOccurs scPair l = true := by
  obtain ⟨a, b, rfl⟩ := (substrOccurs_iff fiaLit l).mp h
  refine (substrOccurs_iff scPair _).mpr ⟨a ++ "  ".data, "alt: ".data ++ b, ?_⟩
  have hd : fiaLit = "  ".data ++ scPair ++ "alt: ".data := rfl
  rw [hd]
  simp [List.append_assoc]

theorem no_sc_aux : ∀ tag : List Char, (∀ c ∈ tag, isWordChar c = true) →
    substrOccurs scPair (tag ++ "::".data) = false := by
  intro tag
  induction tag with
  | nil => intro _; decide
  | cons c ts ih =>
    intro h2
    have hc : isWordChar c = true := h2 c (List.mem_cons_self c ts)
    have hne : (' ' == c) = false := by
      rw [beq_eq_false_iff_ne]
      intro he
      rw [← he] at hc
      exact absurd hc (by decide)
    simp only [List.cons_append, substrOccurs, Bool.or_eq_false_iff]
    constructor
    · simp [List.isPrefixOf, hne]
    · exact ih (fun x hx => h2 x (List.mem_cons_of_mem c hx))

/-- The rewritten fragment `.. <tag>::` contains no adjacent space-colon
pair when the tag is a nonempty word-character run. -/
theorem no_space_colon (tag : List Char) (h1 : tag ≠ [])
    (h2 : ∀ c ∈ tag, isWordChar c = true) :
    substrOccurs scPair (".. ".data ++ tag ++ "::".data) = false := by
  have hy : ".. ".data ++ tag ++ "::".data = '.' :: '.' :: ' ' :: (tag ++ "::".data) := by
    rw [List.append_assoc]; rfl
  rw [hy]
  simp only [substrOccurs, Bool.or_eq_false_iff]
  refine ⟨?_, ?_, ?_, no_sc_aux tag h2⟩
  · simp [scPair, List.isPrefixOf]
  · simp [scPair, List.isPrefixOf]
  · cases tag with
    | nil => exact absurd rfl h1
    | cons c ts =>
      have hc : isWordChar c = true := h2 c (List.mem_cons_self c ts)
      have hne : (':' == c) = false := by
        rw [beq_eq_false_iff_ne]
        intro he
        rw [← he] at hc
        exact absurd hc (by decide)
      simp [scPair, List.isPrefixOf, hne]

end NbConv

namespace NbConv

/-- C8 (amended): the post-processing pipeline rewrites a container site
`.. container:: <tag>` with a nonempty word-character tag to `.. <tag>::`
(the attribute-split and alt-dedup passes leave the rewritten fragment
unchanged), and for the tag `note` the result is exactly `.. note::` with
no residual `container::` token.  The original universal claim fails for
fragments with additional content around the site: a `container::`
occurrence not followed by a word-character tag survives post-processing
(see the counterexample), and an alt-pattern context can even delete the
rewritten line. -/
theorem c8_container_tag_rewrite (tag : List Char) (h1 : tag ≠ [])
    (h2 : ∀ c ∈ tag, isWordChar c = true) :
    charPipeline (".. container:: ".data ++ tag) = ".. ".data ++ tag ++ "::".data ∧
    (tag = "note".data →
      charPipeline (".. container:: ".data ++ tag) = ".. note::".data ∧
      substrOccurs "container::".data (charPipeline (".. container:: ".data ++ tag)) = false) := by
  have hlen : (".. container:: ".data ++ tag).length = (14 + tag.length) + 1 := by
    have h15 : (".. container:: ".data : List Char).length = 15 := rfl
    rw [List.length_append, h15]
    omega
  have hnoeq : '=' ∉ ".. ".data ++ tag ++ "::".data := by
    intro hm
    rcases List.mem_append.mp hm with hm1 | hm2
    · rcases List.mem_append.mp hm1 with hma | hmb
      · exact absurd hma (by decide)
      · exact absurd (h2 _ hmb) (by decide)
    · exact absurd hm2 (by decide)
  have hocc : substrOccurs fiaLit (".. ".data ++ tag ++ "::".data) = false := by
    cases hoc : substrOccurs fiaLit (".. ".data ++ tag ++ "::".data) with
    | false => rfl
    | true =>
      have hsc := substr_fiaLit_to_scPair _ hoc
      rw [no_space_colon tag h1 h2] at hsc
      exact absurd hsc (by decide)
  have hapn : apnChar (".. ".data ++ tag ++ "::".data) = ".. ".data ++ tag ++ "::".data := by
    rw [apnChar]
    exact apn_eq_self_of_no_eq _ none _ hnoeq
  have hmain : charPipeline (".. container:: ".data ++ tag) = ".. ".data ++ tag ++ "::".data := by
    simp only [charPipeline, hlen]
    rw [ust_container_tag (14 + tag.length) tag h1 h2, hapn]
    exact fia_eq_self _ _ hocc
  refine ⟨hmain, fun htag => ?_⟩
  subst htag
  rw [hmain]
  exact ⟨by decide, by decide⟩

/-- C8 witness: the amended theorem instantiated at the tag `note`. -/
theorem c8_witness :
    charPipeline ".. container:: note".data = ".. note::".data ∧
    substrOccurs "container::".data (charPipeline ".. container:: note".data) = false := by
  have he : (".. container:: note".data : List Char) = ".. container:: ".data ++ "note".data := by
    decide
  rw [he]
  exact (c8_container_tag_rewrite "note".data (by decide) (by decide)).2 rfl

/-- A fragment containing the line `.. container:: note` and a second
container occurrence whose tag is not made of word characters. -/
def c8Frag : String := ".. container:: note\n.. container:: ***"

/-- C8 (counterexample): the fragment `c8Frag` contains the line
`.. container:: note` (first conjunct: the line plus its terminating
newline occurs), yet the post-processed result retains a residual
`container::` token: the second directive `.. container:: ***` has no
word-character tag, so the normalization regex does not match it and the
claim's "no residual container:: token" fails. -/
theorem c8_counterexample :
    substrOccurs ".. container:: note\n".data c8Frag.data = true ∧
    postProcessRst c8Frag = ".. note::\n.. container:: ***" ∧
    substrOccurs "container::".data (postProcessRst c8Frag).data = true := by
  refine ⟨by decide, by rfl, by decide⟩

end NbConv

namespace NbConv

/-- C9 witness: the suffix property at the concrete fragment
`x foo :property=bar`. -/
theorem c9_witness :
    "foo\n   :property=bar".data <:+
      (add_property_newline ("x " ++ "foo :property=bar")).data :=
  c9_property_marker_split "x "

/-- C1 witness: an ExecuteResult with `text/plain` `["b"]` at output index 1
renders as the bare header block, its text dropped. -/
theorem c1_witness :
    processOutput cfgX (some "c1") 1 0 ⟨"execute_result", some ⟨some ["b"], none⟩, none⟩ [] =
      .ok (outputHeaderStr, 0, []) := by
  have h := c1_exec_result_rendering cfgX (some "c1") 1 0 [] ["b"] none none
  simpa using h

/-- C6 witness: concrete instances of the amended malformed-output
behaviour. -/
theorem c6_witness :
    processOutput cfgX (some "c1") 0 0 ⟨"execute_result", none, none⟩ [] = .error .typeErr ∧
    processOutput cfgX (some "c1") 0 0 ⟨"display_data", none, none⟩ [] = .error .typeErr ∧
    processOutput cfgX (some "c1") 2 5 ⟨"stream", none, none⟩ [] = .ok ("", 5, []) :=
  ⟨c6_malformed_output_handling.1 cfgX (some "c1") 0 0 [] none,
   c6_malformed_output_handling.2.1 cfgX "c1" 0 0 [] none,
   c6_malformed_output_handling.2.2.1 cfgX (some "c1") 2 5 [] none⟩

end NbConv
